import Mathlib

/-!
Verification of the OpenSpore agent core against its specification.

This file shallowly embeds the four core components of the repository —
the invocation extractor (`crates/brain/src/parser.rs`), the thinking loop
with its write-safety gate (`crates/brain/src/thinking.rs`), the retry
completion wrapper (`substrate/brain/src/api.rs`), the bounded sub-agent
spawner (`crates/swarm/src/lib.rs`) and the delegate skill
(`crates/skills/src/delegate.rs`) — as executable Lean definitions, and
proves or refutes the frozen claims about them.

Modelling conventions:
* Rust `String`/`&str` values are Lean `String`s; scanning is done over
  `String.data : List Char`, matching Rust's `chars()` iteration over
  Unicode scalar values.
* Rust character classes (`is_whitespace`, `is_numeric`, `to_lowercase`)
  are modelled by their ASCII behaviour (`Char.isWhitespace`,
  `Char.isDigit`, `Char.toLower`); all inputs of interest are ASCII.
* Bounded loops from the source are written with an explicit fuel
  argument equal to the bound the source itself enforces (string length
  for the scanner, `max_depth` for the thinking loop, `max_attempts` for
  the retry loop), so every definition is a computable structural
  recursion; the zero-fuel fallbacks are unreachable at those bounds.
* External collaborators (the HTTP client, `serde_json`'s parser, the
  skill implementations, the spawned process) are parameters (oracles);
  everything the repository's own code does with their results is
  embedded.
-/

/-! ### Character and string helpers (list-level models of Rust `str` ops) -/

/-- The backtick character, written via its code point. -/
def backtickChar : Char := Char.ofNat 96

/-- The single-quote character, written via its code point. -/
def squoteChar : Char := Char.ofNat 39

/-- `listContainsSub pat s = true` iff `pat` occurs contiguously in `s`;
models Rust `str::contains` for string patterns. -/
def listContainsSub (pat : List Char) : List Char → Bool
  | [] => pat.isEmpty
  | c :: rest => pat.isPrefixOf (c :: rest) || listContainsSub pat rest

/-- Rust `haystack.contains(pat)`. -/
def strContains (s pat : String) : Bool := listContainsSub pat.data s.data

/-- Strip leading and trailing whitespace from a character list. -/
def trimWsL (l : List Char) : List Char :=
  ((l.dropWhile Char.isWhitespace).reverse.dropWhile Char.isWhitespace).reverse

/-- Rust `str::trim`. -/
def strTrim (s : String) : String := String.mk (trimWsL s.data)

/-- Rust `str::to_lowercase` (ASCII behaviour). -/
def strLower (s : String) : String := String.mk (s.data.map Char.toLower)

/-- Rust `str::starts_with`. -/
def strStartsWith (s p : String) : Bool := p.data.isPrefixOf s.data

/-- Rust `str::ends_with`. -/
def strEndsWith (s p : String) : Bool := p.data.isSuffixOf s.data

/-- Strip all leading and trailing occurrences of `c`;
models Rust `str::trim_matches(c)`. -/
def trimCharL (c : Char) (l : List Char) : List Char :=
  ((l.dropWhile (· == c)).reverse.dropWhile (· == c)).reverse

/-! ### Invocation extractor — `ToolParser::extract_tools` (parser.rs 6–104)

The Rust code runs a single left-to-right index scan with a nested
state machine for the argument body.  We embed the inner state machine
as `scanStep`/`closesBracket` (bracket envelopes) and
`fenceStep`/`scanFenceArg` (markdown envelopes), and the outer scan as
`extract_loop`, with fuel equal to the text length (the Rust index `i`
strictly increases every iteration, so length-many iterations suffice). -/

/-- The tool-name character class of parser.rs line 44:
`is_ascii_uppercase || is_numeric || '_'`. -/
def isNameChar (c : Char) : Bool := c.isUpper || c.isDigit || c == '_'

/-- Skip leading whitespace (parser.rs line 41). -/
def skipWs : List Char → List Char
  | [] => []
  | c :: rest => if c.isWhitespace then skipWs rest else c :: rest

/-- The mutable scan state of the bracket-envelope body loop
(parser.rs lines 52–55): bracket depth, quote state, escape flag. -/
structure ScanState where
  depth : Nat
  inQuote : Bool
  qc : Char
  esc : Bool

/-- One transition of the bracket-body state machine
(parser.rs lines 58–71), for a character that does not close the
envelope. -/
def scanStep (st : ScanState) (c : Char) : ScanState :=
  if st.esc then { st with esc := false }
  else if c = '\\' then { st with esc := true }
  else if st.inQuote then (if c = st.qc then { st with inQuote := false } else st)
  else if c = '"' ∨ c = squoteChar ∨ c = backtickChar then { st with inQuote := true, qc := c }
  else if c = '[' then { st with depth := st.depth + 1 }
  else if c = ']' then { st with depth := st.depth - 1 }
  else st

/-- Does character `c` close the bracket envelope in state `st`?
(the `']' => { depth -= 1; if depth == 0 { found_end } }` case,
reachable only outside quotes and escapes). -/
def closesBracket (st : ScanState) (c : Char) : Bool :=
  !st.esc && !st.inQuote && c == ']' && st.depth == 1

/-- The initial body-scan state: `depth = 1`, no quote, no escape
(parser.rs lines 52–55; the initial `quote_char` is `'\0'`). -/
def initScan : ScanState := ⟨1, false, Char.ofNat 0, false⟩

/-- Scan the body of a bracket envelope.  Returns the argument
characters (up to, excluding, the closing `]`) and the rest of the text
after the closing `]`; `none` if the envelope never closes. -/
def scanBracketArg (st : ScanState) : List Char → Option (List Char × List Char)
  | [] => none
  | c :: rest =>
    if closesBracket st c then some ([], rest)
    else (scanBracketArg (scanStep st c) rest).map (fun p => (c :: p.1, p.2))

/-- The quote/escape transition of the markdown-fence body loop
(parser.rs lines 79–83); returns `(in_quote, quote_char, escape)`. -/
def fenceStep (inQuote : Bool) (qc : Char) (esc : Bool) (c : Char) : Bool × Char × Bool :=
  if esc then (inQuote, qc, false)
  else if c = '\\' then (inQuote, qc, true)
  else if inQuote then (if c = qc then (false, qc, false) else (inQuote, qc, false))
  else if c = '"' ∨ c = squoteChar ∨ c = backtickChar then (true, c, false)
  else (inQuote, qc, false)

/-- Scan the body of a markdown-fence envelope: it ends at the next
"```" outside a quote (parser.rs lines 72–78); the rest of the text
starts after that fence (`i = current + 3`). -/
def scanFenceArg (inQuote : Bool) (qc : Char) (esc : Bool) : List Char → Option (List Char × List Char)
  | [] => none
  | c :: rest =>
    if (c :: rest).take 3 = [backtickChar, backtickChar, backtickChar] ∧ inQuote = false then
      some ([], (c :: rest).drop 3)
    else
      match fenceStep inQuote qc esc c with
      | (iq, q2, e2) => (scanFenceArg iq q2 e2 rest).map (fun p => (c :: p.1, p.2))

/-- Parse one envelope body starting just after its opening marker
(parser.rs lines 40–99): skip whitespace, read a maximal name run,
require length ≥ 2 (`j > name_start + 1`) followed by `:`, then scan
the argument to the closing delimiter.  Returns the name, the trimmed
argument, and the rest of the text after the closing delimiter. -/
def parseEnvelope (isMd : Bool) (s : List Char) : Option (String × String × List Char) :=
  let t := skipWs s
  let nameL := t.takeWhile isNameChar
  let rest := t.dropWhile isNameChar
  if 2 ≤ nameL.length ∧ rest.head? = some ':' then
    (if isMd then scanFenceArg false (Char.ofNat 0) false rest.tail
     else scanBracketArg initScan rest.tail).map
      (fun p => (String.mk nameL, strTrim (String.mk p.1), p.2))
  else none

/-- The characters of the `"```tool_code"` start marker. -/
def toolCodeMarker : List Char := "```tool_code".data

/-- The characters of the `"```json"` start marker. -/
def jsonMarker : List Char := "```json".data

/-- The "surgical check" of parser.rs lines 23–36: after a "```json"
marker, skip whitespace and require an uppercase/digit/underscore
identifier of length ≥ 2 immediately followed by `:`. -/
def jsonPeekOk (s : List Char) : Bool :=
  let t := skipWs s
  let nameL := t.takeWhile isNameChar
  decide (2 ≤ nameL.length) && ((t.dropWhile isNameChar).head? == some ':')

/-- Detect a tool start marker at the current scan position
(parser.rs lines 16–37): `[`, then "```tool_code", then "```json" with
the peek check.  Returns the marker length and whether the envelope is
a markdown fence. -/
def detectMarker (s : List Char) : Option (Nat × Bool) :=
  if s.head? = some '[' then some (1, false)
  else if s.take 12 = toolCodeMarker then some (12, true)
  else if s.take 7 = jsonMarker ∧ jsonPeekOk (s.drop 7) = true then some (7, true)
  else none

/-- The outer scan of `extract_tools` (parser.rs lines 12–102).  At each
position: try to detect a marker and parse an envelope.  On a parsed
envelope, emit the pair if the name is registered and resume after the
closing delimiter (`i = current + 1` resp. `current + 3`); on a failed
name check or unterminated envelope, resume one character further
(`i += 1`).  Fuel bounds the number of outer iterations; the scan
position strictly increases each iteration, so `s.length` fuel is
always enough. -/
def extract_loop (isReg : String → Bool) : Nat → List Char → List (String × String)
  | 0, _ => []
  | _ + 1, [] => []
  | fuel + 1, c :: rest =>
    match detectMarker (c :: rest) with
    | none => extract_loop isReg fuel rest
    | some (mlen, isMd) =>
      match parseEnvelope isMd ((c :: rest).drop mlen) with
      | none => extract_loop isReg fuel rest
      | some (name, arg, after) =>
        if isReg name then (name, arg) :: extract_loop isReg fuel after
        else extract_loop isReg fuel after

/-- The outer scan run with its canonical fuel. -/
def run_extract (isReg : String → Bool) (s : List Char) : List (String × String) :=
  extract_loop isReg s.length s

/-- `ToolParser::extract_tools(content, skill_loader)`; the skill
registry appears through the predicate
`isReg name = skill_loader.get(&name).is_some()`. -/
def extract_tools (content : String) (isReg : String → Bool) : List (String × String) :=
  run_extract isReg content.data

/-- Predicate on an argument body: scanning it from state `st` never
closes the envelope early, and at its end the state is ready for a
closing `]` (no open quote, no pending escape, depth back to 1).  This
characterises the "balanced brackets, quote-protected `]`" arguments of
the specification in terms of the source's own state machine. -/
def noEarlyClose (st : ScanState) : List Char → Bool
  | [] => !st.esc && !st.inQuote && st.depth == 1
  | c :: rest => !(closesBracket st c) && noEarlyClose (scanStep st c) rest

/-! ### JSON values

A model of `serde_json::Value` as far as the repository's own code
inspects or builds such values.  Parsing (`serde_json::from_str`) is an
external collaborator and appears as an oracle parameter where used;
serialisation of the concrete objects the code builds is embedded
(`renderJson`), with object keys listed in the alphabetical order
serde_json's default `BTreeMap` representation serialises them in. -/

inductive JValue where
  | jnull
  | jbool (b : Bool)
  | jnum (n : Int)
  | jstr (s : String)
  | jarr (xs : List JValue)
  | jobj (fields : List (String × JValue))

/-- `Value::get(key)` for objects: `Some` only when the key is present
(thinking.rs lines 108–110 use this form). -/
def JValue.getOpt : JValue → String → Option JValue
  | .jobj fs, k => (fs.find? (fun p => p.1 == k)).map (fun p => p.2)
  | _, _ => none

/-- `value[key]` indexing: `Null` on a missing key or a non-object
(api.rs line 39 uses this form). -/
def JValue.getKey : JValue → String → JValue
  | .jobj fs, k =>
    match fs.find? (fun p => p.1 == k) with
    | some p => p.2
    | none => .jnull
  | _, _ => .jnull

/-- `value[idx]` indexing: `Null` out of range or on a non-array. -/
def JValue.getIdx : JValue → Nat → JValue
  | .jarr xs, i => xs.getD i .jnull
  | _, _ => .jnull

/-- `Value::as_str`. -/
def JValue.asStr : JValue → Option String
  | .jstr s => some s
  | _ => none

/-- Lower-case hexadecimal digit. -/
def hexLowerDigit (n : Nat) : Char :=
  if n < 10 then Char.ofNat (48 + n) else Char.ofNat (97 + (n - 10))

/-- serde_json's string escaping: quote, backslash, short control
escapes, `\u00XX` for the remaining control characters. -/
def escapeJsonChar (c : Char) : List Char :=
  if c = '"' then ['\\', '"']
  else if c = '\\' then ['\\', '\\']
  else if c = Char.ofNat 8 then ['\\', 'b']
  else if c = '\t' then ['\\', 't']
  else if c = '\n' then ['\\', 'n']
  else if c = Char.ofNat 12 then ['\\', 'f']
  else if c = Char.ofNat 13 then ['\\', 'r']
  else if c.toNat < 32 then
    ['\\', 'u', '0', '0', hexLowerDigit (c.toNat / 16), hexLowerDigit (c.toNat % 16)]
  else [c]

/-- Escape a string for JSON output. -/
def escapeJsonString (s : String) : String :=
  String.mk (s.data.foldr (fun c acc => escapeJsonChar c ++ acc) [])

mutual

/-- `serde_json::to_string` of a value. -/
def renderJson : JValue → String
  | .jnull => "null"
  | .jbool b => if b then "true" else "false"
  | .jnum n => toString n
  | .jstr s => "\"" ++ escapeJsonString s ++ "\""
  | .jarr xs => "[" ++ String.intercalate "," (renderJsonList xs) ++ "]"
  | .jobj fs => "\x7b" ++ String.intercalate "," (renderJsonFields fs) ++ "\x7d"

/-- Render the elements of a JSON array. -/
def renderJsonList : List JValue → List String
  | [] => []
  | x :: xs => renderJson x :: renderJsonList xs

/-- Render the fields of a JSON object. -/
def renderJsonFields : List (String × JValue) → List String
  | [] => []
  | (k, v) :: fs => ("\"" ++ escapeJsonString k ++ "\":" ++ renderJson v) :: renderJsonFields fs

end

/-! ### Path utilities — `openspore_core::path_utils` (path_utils.rs 12–55)

The Rust functions read the `HOME` and `OPENSPORE_ROOT` environment
variables with defaults `"."` and `".openspore"`; the embedding takes
the post-default values as explicit `home` / `rootName` parameters. -/

/-- Split at the first occurrence of `pat`: `(before, after)` excludes
the pattern itself.  Models `str::find`-based first-occurrence logic
(`replacen`/`splitn`). -/
def splitFirstL (pat : List Char) : List Char → Option (List Char × List Char)
  | [] => if pat.isEmpty then some ([], []) else none
  | c :: rest =>
    if pat.isPrefixOf (c :: rest) then some ([], (c :: rest).drop pat.length)
    else (splitFirstL pat rest).map (fun p => (c :: p.1, p.2))

/-- Rust `str::replacen(pat, repl, 1)`: replace the first occurrence. -/
def replaceFirstStr (s pat repl : String) : String :=
  match splitFirstL pat.data s.data with
  | some (before, after) => String.mk (before ++ repl.data ++ after)
  | none => s

/-- One pass of Rust `str::replace` over a character list, with fuel
(the scan position strictly advances; the pattern is nonempty at every
use site, making the `isEmpty` guard vacuous there). -/
def replaceAllL (pat repl : List Char) : Nat → List Char → List Char
  | 0, s => s
  | _ + 1, [] => []
  | fuel + 1, c :: rest =>
    if pat.isPrefixOf (c :: rest) ∧ pat.isEmpty = false then
      repl ++ replaceAllL pat repl fuel ((c :: rest).drop pat.length)
    else c :: replaceAllL pat repl fuel rest

/-- Rust `str::replace` (all occurrences, left to right). -/
def replaceAllStr (s pat repl : String) : String :=
  String.mk (replaceAllL pat.data repl.data s.data.length s.data)

/-- `expand_tilde` (path_utils.rs 12–25): no-op without `~`; otherwise
replace a leading `~/` once, then every `" ~/"`, with the home
directory. -/
def expand_tilde (home path : String) : String :=
  if strContains path "~" = false then path
  else
    let r1 := if strStartsWith path "~/" then replaceFirstStr path "~/" (home ++ "/") else path
    replaceAllStr r1 " ~/" (" " ++ home ++ "/")

/-- `PathBuf::join` on Unix paths rendered as strings: an absolute
right operand replaces the base; otherwise a separator is inserted
unless the base is empty or already ends in one. -/
def pathJoin (base p : String) : String :=
  if strStartsWith p "/" then p
  else if base = "" ∨ strEndsWith base "/" then base ++ p
  else base ++ "/" ++ p

/-- `get_app_root` (path_utils.rs 34–45). -/
def get_app_root (home rootName : String) : String :=
  if strStartsWith rootName "/" then rootName
  else if strStartsWith rootName "~" then expand_tilde home rootName
  else pathJoin home rootName

/-- `ensure_absolute` (path_utils.rs 48–55), composed with
`to_string_lossy` (identity on valid UTF-8). -/
def ensure_absolute (home rootName path : String) : String :=
  let p := expand_tilde home path
  if strStartsWith p "/" then p else pathJoin (get_app_root home rootName) p

/-! ### The write-safety gate and tool dispatch (thinking.rs 96–180)

`serde_json::from_str::<Value>` is an external collaborator, passed as
the oracle `jsonParse`; the registered skills are a lookup function
from lower-cased names (`SkillLoader::get` lower-cases its argument,
skills/lib.rs 391–392). -/

/-- The destructive-tool name set (thinking.rs line 97). -/
def destructive_tools : List String := ["edit_file", "write_file", "diff_patch", "delegate"]

/-- The synthesized failure text of thinking.rs line 133. -/
def refusalMsg (ap : String) : String :=
  "ERROR: State Verification Refused. You must use `READ_FILE` or `LIST_DIR` on \x27" ++ ap ++
    "\x27 to verify its current state before attempting to modify it. Blind writes are forbidden for safety. (Tip: Use full absolute paths)"

/-- The exempt internal bookkeeping paths (thinking.rs lines 126–128). -/
def isInternalPath (ap : String) : Bool :=
  strEndsWith ap "session_summary.md" || strEndsWith ap "LOGS.md" ||
    strContains ap "/workspace/context/"

/-- The non-JSON fallback of thinking.rs lines 114–117: first
whitespace-delimited token, stripped of double quotes, `none` if
empty. -/
def firstTokenTrimQuotes (arg : String) : Option String :=
  let tok := trimCharL '"' ((arg.data.dropWhile Char.isWhitespace).takeWhile (fun c => !c.isWhitespace))
  if tok.isEmpty then none else some (String.mk tok)

/-- Target-path extraction of thinking.rs lines 102–119: none for
`delegate`; a `path`/`TargetFile`/`filename` string field if the
argument parses as JSON; otherwise the first-token fallback. -/
def extractVerifyPath (jsonParse : String → Option JValue) (name arg : String) : Option String :=
  if strLower name == "delegate" then none
  else
    match jsonParse arg with
    | some j =>
      (((j.getOpt "path").orElse (fun _ => j.getOpt "TargetFile")).orElse
        (fun _ => j.getOpt "filename")).bind JValue.asStr
    | none => firstTokenTrimQuotes arg

/-- The environment the gate needs: the JSON parser oracle and the
(post-default) `HOME` / `OPENSPORE_ROOT` values used by
`ensure_absolute`. -/
structure GateEnv where
  jsonParse : String → Option JValue
  home : String
  rootName : String

/-- The write-safety gate (thinking.rs lines 100–137): for a
destructive tool name whose argument yields a target path, refuse with
the synthesized failure unless the absolutized path is an exempt
internal path or occurs verbatim in the joined history or the system
prompt. -/
def gateRefusal (env : GateEnv) (history sysPrompt name arg : String) : Option String :=
  if destructive_tools.contains (strLower name) then
    match extractVerifyPath env.jsonParse name arg with
    | some p =>
      let ap := ensure_absolute env.home env.rootName p
      if isInternalPath ap = false ∧ strContains history ap = false ∧
          strContains sysPrompt ap = false then some (refusalMsg ap)
      else none
    | none => none
  else none

/-- Skill lookup and execution (thinking.rs lines 144–178):
`SkillLoader::get` lower-cases the name; a missing skill yields the
"Unknown tool" error result. -/
def runSkill (skills : String → Option (String → Except String String)) (name arg : String) :
    Except String String :=
  match skills (strLower name) with
  | some f => f arg
  | none => .error ("Unknown tool \x27" ++ name ++ "\x27")

/-- Dispatch of one invocation: the gate first, then skill execution.
A refused invocation never consults `skills`. -/
def dispatchTool (env : GateEnv) (skills : String → Option (String → Except String String))
    (history sysPrompt : String) (inv : String × String) : String × Except String String :=
  match gateRefusal env history sysPrompt inv.1 inv.2 with
  | some msg => (inv.1, .error msg)
  | none => (inv.1, runSkill skills inv.1 inv.2)

/-- One labeled entry of the feedback block (thinking.rs lines 183–193). -/
def toolResultEntry (p : String × Except String String) : String :=
  match p.2 with
  | .ok output => "\n--- Output from " ++ p.1 ++ " ---\n" ++ output ++ "\n"
  | .error e => "\n--- Error from " ++ p.1 ++ " ---\n" ++ e ++ "\n"

/-- The `<TOOL_OUTPUTS>` feedback block (thinking.rs lines 182–194).
The source collects results in completion order; the spec leaves the
internal order unconstrained, and we list them in request order. -/
def toolOutputsBlock (results : List (String × Except String String)) : String :=
  "\n<TOOL_OUTPUTS>\n" ++ String.join (results.map toolResultEntry) ++ "\n</TOOL_OUTPUTS>\n"

/-- One round of tool execution over the extracted invocation list. -/
def runRound (env : GateEnv) (skills : String → Option (String → Except String String))
    (history sysPrompt : String) (invs : List (String × String)) :
    List (String × Except String String) :=
  invs.map (dispatchTool env skills history sysPrompt)

/-! ### The thinking loop — `Brain::think_internal` (thinking.rs 6–254)

The completion provider is the oracle `complete` (a deterministic
function of the message history — sufficient for the claims, which
constrain it only through hypotheses).  Journal writes, observer events
and the fire-and-forget learning task are external side effects without
influence on the loop's control flow or return value and are not
modelled; the returned `toolRounds` count instruments how many
tool-executing rounds ran. -/

/-- A conversation message (lib.rs `Message`). -/
structure Message where
  role : String
  content : String

/-- `max_depth` (thinking.rs line 32). -/
def max_depth : Nat := 24

/-- The depth-exceeded notice appended at thinking.rs line 38. -/
def depthNotice : String :=
  "\n\n[SYSTEM: Maximum thinking depth reached. Please summarize your findings.]"

/-- The self-correction instruction of thinking.rs lines 66–69. -/
def selfCorrectionMsg : String :=
  "SYSTEM ERROR: You attempted to use a tool using Markdown code blocks (```). THIS IS INVALID. \n\nREQUIRED SYNTAX: `[TOOL_NAME: argument]`\n\nExample: `[DELEGATE: \"task\"]`\n\nPlease retry immediately with the correct syntax."

/-- The instruction appended after the tool outputs (thinking.rs line 200). -/
def feedbackSuffix : String :=
  "\n\nProcess the results. If more actions needed, use tools. If done, provide final answer."

/-- The hallucinated-markdown check of thinking.rs line 62. -/
def hasMarkdownHint (content : String) : Bool :=
  strContains content "```tool_code" || strContains content "```python" ||
    strContains content "```javascript" || strContains content "```bash"

/-- The loop's environment: completion oracle, gate environment, skill
registry (keyed by lower-case names, as `SkillLoader` stores them). -/
structure ThinkEnv where
  complete : List Message → Except String String
  gate : GateEnv
  skills : String → Option (String → Except String String)

/-- The registration predicate the extractor sees:
`skill_loader.get(&name).is_some()` (parser.rs line 92). -/
def ThinkEnv.loaderHas (env : ThinkEnv) (name : String) : Bool :=
  (env.skills (strLower name)).isSome

/-- The observable outcome of `think_internal`: the returned string and
the number of tool-executing rounds that ran. -/
structure ThinkOut where
  result : String
  toolRounds : Nat

/-- `history_so_far` (thinking.rs line 96): all message contents joined
with newlines. -/
def historyJoin (messages : List Message) : String :=
  String.intercalate "\n" (messages.map Message.content)

/-- The two turns appended on the self-correction path
(thinking.rs lines 65–69). -/
def correctionMessages (messages : List Message) (content : String) : List Message :=
  messages ++ [⟨"assistant", content⟩, ⟨"user", selfCorrectionMsg⟩]

/-- The two turns appended after a tool round (thinking.rs lines
196–201): the assistant's text and the feedback block. -/
def feedMessages (env : ThinkEnv) (sysPrompt : String) (messages : List Message)
    (content : String) : List Message :=
  messages ++ [⟨"assistant", content⟩,
    ⟨"user", toolOutputsBlock (runRound env.gate env.skills (historyJoin messages) sysPrompt
      (extract_tools content env.loaderHas)) ++ feedbackSuffix⟩]

/-- The tool loop of thinking.rs lines 35–212.  `depth` and the depth
check mirror the source; the fuel argument makes the recursion
structural and is always called with `max_depth`, which the top-of-loop
`depth` check never lets run out (each iteration increments `depth`). -/
def think_loop (env : ThinkEnv) (sysPrompt : String) (fuel depth : Nat)
    (messages : List Message) (content : String) (rounds : Nat) : ThinkOut :=
  if max_depth ≤ depth then ⟨content ++ depthNotice, rounds⟩
  else
    match fuel with
    | 0 => ⟨content, rounds⟩
    | fuel + 1 =>
      if (extract_tools content env.loaderHas).isEmpty && hasMarkdownHint content then
        match env.complete (correctionMessages messages content) with
        | .ok newContent =>
          think_loop env sysPrompt fuel (depth + 1) (correctionMessages messages content)
            newContent rounds
        | .error _ => ⟨content, rounds⟩
      else if (extract_tools content env.loaderHas).isEmpty then ⟨content, rounds⟩
      else
        match env.complete (feedMessages env sysPrompt messages content) with
        | .ok newContent =>
          think_loop env sysPrompt fuel (depth + 1) (feedMessages env sysPrompt messages content)
            newContent (rounds + 1)
        | .error _ => ⟨content, rounds + 1⟩

/-- `think_internal` (thinking.rs): initial system/user messages, the
initial completion (whose failure returns the explicit `"Errors: …"`
string, line 27), then the tool loop. -/
def think (env : ThinkEnv) (sysPrompt userPrompt : String) : ThinkOut :=
  let messages : List Message := [⟨"system", sysPrompt⟩, ⟨"user", userPrompt⟩]
  match env.complete messages with
  | .ok c => think_loop env sysPrompt max_depth 0 messages c 0
  | .error e => ⟨"Errors: " ++ e, 0⟩

/-! ### The retry completion wrapper — `Brain::complete` (api.rs 6–53)

The HTTP client is the oracle `respond`, indexed by the attempt number;
a transport-level failure (the `?` on `send()` / `res.json()`)
propagates immediately.  The `Display` of a status is modelled as its
decimal code (the canonical reason phrase of `reqwest::StatusCode` is
omitted); sleeping is modelled by accumulating the requested backoff
milliseconds. -/

/-- One upstream attempt's outcome: a transport error, or an HTTP
response with a status code and a body parse result. -/
inductive HttpStep where
  | transportErr (msg : String)
  | response (status : Nat) (body : Except String JValue)

/-- `StatusCode::is_success` (2xx). -/
def isSuccessStatus (s : Nat) : Bool := decide (200 ≤ s) && decide (s < 300)

/-- The retryable classification of api.rs line 43: 429 or ≥ 500. -/
def isRetryableStatus (s : Nat) : Bool := s == 429 || decide (500 ≤ s)

/-- `max_attempts` (api.rs line 21). -/
def max_attempts : Nat := 3

/-- The observable outcome of `Brain::complete`: the result, the number
of attempts made, and the total backoff slept. -/
structure CompleteOut where
  result : Except String String
  attemptsMade : Nat
  backoffMs : Nat

/-- The single field the wrapper extracts:
`json["choices"][0]["message"]["content"].as_str()` (api.rs line 39). -/
def contentPath (j : JValue) : Option String :=
  ((((j.getKey "choices").getIdx 0).getKey "message").getKey "content").asStr

/-- The retry loop of api.rs lines 23–52.  The fuel is always
`max_attempts`; the `attempts < max_attempts` guard keeps it from
running out. -/
def complete_loop (respond : Nat → HttpStep) (fuel attempts backoff : Nat) : CompleteOut :=
  match fuel with
  | 0 => ⟨.error "out of fuel", attempts, backoff⟩
  | fuel + 1 =>
    let a := attempts + 1
    match respond a with
    | .transportErr m => ⟨.error m, a, backoff⟩
    | .response status body =>
      if isSuccessStatus status then
        match body with
        | .error m => ⟨.error m, a, backoff⟩
        | .ok j => ⟨.ok ((contentPath j).getD ""), a, backoff⟩
      else if isRetryableStatus status && decide (a < max_attempts) then
        complete_loop respond fuel a (backoff + 1000 * 2 ^ (a - 1))
      else
        ⟨.error ("API Error: " ++ toString status ++ " (after " ++ toString a ++ " attempts)"),
          a, backoff⟩

/-- `Brain::complete` with the attempt counter starting at 0. -/
def brain_complete (respond : Nat → HttpStep) : CompleteOut :=
  complete_loop respond max_attempts 0 0

/-! ### The bounded sub-agent spawner — `SwarmManager::spawn` (swarm lib.rs 10, 32–67)

`SWARM_SEMAPHORE` is a global `tokio::sync::Semaphore` with 6 permits;
`spawn` acquires one permit before spawning the subprocess and holds it
(an RAII guard) until it returns, on every path — success, non-zero
exit, spawn error, timeout.  Crucially, on the timeout path (swarm
lib.rs 60–65, with the source's own comment admitting it) the child
process is NOT killed: the wait future is dropped, the permit is
released, and the OS process keeps running, now unaccounted for.

We model the concurrent executions of `spawn` as a small-step
transition system that keeps permit accounting separate from process
aliveness: each job acquires a permit (possible only when one is
available) to enter its running phase; finishing through an exit path
on which the subprocess is gone (exit, or no process spawned) releases
the permit and ends the job; finishing through the timeout path
releases the permit but leaves the subprocess alive (`abandoned`),
and such an abandoned process may exit on its own later (`reap`,
outside `spawn`'s control, touching no permit).  Reachability
quantifies over all interleavings. -/

/-- The permit count of `SWARM_SEMAPHORE` (swarm lib.rs line 10). -/
def swarmPermits : Nat := 6

/-- The exit paths of `SwarmManager::spawn` on which no live subprocess
remains when the permit is released: the process exited (with success
or a non-zero status), or it was never spawned. -/
inductive ReapedKind where
  | success
  | nonZeroExit
  | spawnError

/-- The phase of one delegated job: waiting on `acquire`; running with
a permit held and the subprocess alive; abandoned after a timeout
(permit released, but the subprocess still alive, since swarm lib.rs
60–65 does not kill it); or done (permit released, no live process). -/
inductive JobState where
  | waiting
  | running
  | abandoned
  | done
deriving DecidableEq

/-- Global state: the phase of each of the `n` jobs and the available
permits of the semaphore. -/
structure SwarmState (n : Nat) where
  jobs : Fin n → JobState
  avail : Nat

/-- All jobs waiting, all `swarmPermits` permits available. -/
def swarmInit (n : Nat) : SwarmState n :=
  ⟨fun _ => JobState.waiting, swarmPermits⟩

/-- One interleaving step: a waiting job acquires a permit (only when
one is available); a running job finishes on a path that leaves no live
process and releases its permit; a running job times out, releasing its
permit while its subprocess stays alive; or an abandoned subprocess
finally exits on its own, without touching the permit pool. -/
inductive SwarmStep (n : Nat) : SwarmState n → SwarmState n → Prop where
  | acquire (s : SwarmState n) (i : Fin n) (hw : s.jobs i = JobState.waiting)
      (hp : 0 < s.avail) :
      SwarmStep n s ⟨Function.update s.jobs i JobState.running, s.avail - 1⟩
  | finishReaped (s : SwarmState n) (i : Fin n) (k : ReapedKind)
      (hr : s.jobs i = JobState.running) :
      SwarmStep n s ⟨Function.update s.jobs i JobState.done, s.avail + 1⟩
  | finishTimeout (s : SwarmState n) (i : Fin n)
      (hr : s.jobs i = JobState.running) :
      SwarmStep n s ⟨Function.update s.jobs i JobState.abandoned, s.avail + 1⟩
  | reap (s : SwarmState n) (i : Fin n) (ha : s.jobs i = JobState.abandoned) :
      SwarmStep n s ⟨Function.update s.jobs i JobState.done, s.avail⟩

/-- States reachable from the initial state by any interleaving. -/
inductive SwarmReachable (n : Nat) : SwarmState n → Prop where
  | init : SwarmReachable n (swarmInit n)
  | step (s s2 : SwarmState n) : SwarmReachable n s → SwarmStep n s s2 → SwarmReachable n s2

/-- The number of jobs currently holding a permit (inside the
spawn+wait lifetime). -/
def runningCount (n : Nat) (s : SwarmState n) : Nat :=
  (Finset.univ.filter (fun i => s.jobs i = JobState.running)).card

/-- The number of live sub-agent subprocesses: those awaited under a
permit plus those abandoned by a timeout but never killed. -/
def liveCount (n : Nat) (s : SwarmState n) : Nat :=
  (Finset.univ.filter
    (fun i => s.jobs i = JobState.running ∨ s.jobs i = JobState.abandoned)).card

/-- Every job has finished. -/
def allDone (n : Nat) (s : SwarmState n) : Prop := ∀ i, s.jobs i = JobState.done

/-- A seven-job scenario exhibiting more than six live subprocesses:
jobs 0–5 acquire the six permits, job 0 times out (its permit is
released but its process keeps running), and job 6 acquires the freed
permit.  `swarmOver1` … `swarmOver8` are the states along the way. -/
def swarmOver0 : SwarmState 7 := swarmInit 7

/-- Job 0 acquires a permit. -/
def swarmOver1 : SwarmState 7 :=
  ⟨Function.update swarmOver0.jobs 0 JobState.running, swarmOver0.avail - 1⟩

/-- Job 1 acquires a permit. -/
def swarmOver2 : SwarmState 7 :=
  ⟨Function.update swarmOver1.jobs 1 JobState.running, swarmOver1.avail - 1⟩

/-- Job 2 acquires a permit. -/
def swarmOver3 : SwarmState 7 :=
  ⟨Function.update swarmOver2.jobs 2 JobState.running, swarmOver2.avail - 1⟩

/-- Job 3 acquires a permit. -/
def swarmOver4 : SwarmState 7 :=
  ⟨Function.update swarmOver3.jobs 3 JobState.running, swarmOver3.avail - 1⟩

/-- Job 4 acquires a permit. -/
def swarmOver5 : SwarmState 7 :=
  ⟨Function.update swarmOver4.jobs 4 JobState.running, swarmOver4.avail - 1⟩

/-- Job 5 acquires the last permit. -/
def swarmOver6 : SwarmState 7 :=
  ⟨Function.update swarmOver5.jobs 5 JobState.running, swarmOver5.avail - 1⟩

/-- Job 0 times out: permit released, subprocess abandoned alive. -/
def swarmOver7 : SwarmState 7 :=
  ⟨Function.update swarmOver6.jobs 0 JobState.abandoned, swarmOver6.avail + 1⟩

/-- Job 6 acquires the freed permit: seven subprocesses now live. -/
def swarmOver8 : SwarmState 7 :=
  ⟨Function.update swarmOver7.jobs 6 JobState.running, swarmOver7.avail - 1⟩

/-! ### The delegate skill — `DelegateSkill::execute` (delegate.rs 16–41)

The spawned subprocess is the oracle `SpawnOutcome`;
`swarmSpawnResult` embeds how `SwarmManager::spawn` (swarm lib.rs
49–66) turns it into a `Result`, and `delegateExecute` embeds the
skill's argument parsing and JSON packaging.  The `json!` objects are
rendered with their keys in serde_json's alphabetical order. -/

/-- The outcome of spawning and awaiting one sub-agent process.
`timedOut` means the 180-second wait elapsed; the child process is not
killed on that path (swarm lib.rs 60–65) and may keep running, which
does not affect the `Result` value `spawn` returns. -/
inductive SpawnOutcome where
  | spawnErr (msg : String)
  | waitErr (msg : String)
  | timedOut
  | completed (exitSuccess : Bool) (statusDisplay stdout stderr : String)

/-- The `Result` produced by `SwarmManager::spawn` from the process
outcome (swarm lib.rs lines 49–66). -/
def swarmSpawnResult (o : SpawnOutcome) : Except String String :=
  match o with
  | .spawnErr m => .error m
  | .waitErr m => .error ("Sub-spore error: " ++ m)
  | .timedOut => .error "Sub-spore timeout (10m)"
  | .completed exitSuccess st out err =>
    let stdout := strTrim out
    if exitSuccess then .ok stdout
    else .error ("Sub-spore failed (" ++ st ++ "):\n" ++ stdout ++ "\n" ++ err)

/-- The argument parsing of delegate.rs lines 17–19:
`splitn(2, "--role=")`, then trim / strip quotes on both parts; the
role defaults to `"GeneralExpert"`. -/
def delegateTaskRole (args : String) : String × String :=
  match splitFirstL "--role=".data args.data with
  | some (before, after) =>
    (strTrim (String.mk (trimCharL squoteChar (trimCharL '"' (trimWsL before)))),
     String.mk (trimCharL squoteChar (trimCharL '"' (trimWsL after))))
  | none =>
    (strTrim (String.mk (trimCharL squoteChar (trimCharL '"' (trimWsL args.data)))),
     "GeneralExpert")

/-- The role string the skill reports. -/
def delegateRole (args : String) : String := (delegateTaskRole args).2

/-- `DelegateSkill::execute` (delegate.rs lines 16–41): both the
success and the failure of the spawned sub-agent are packaged into an
`Ok` JSON payload. -/
def delegateExecute (o : SpawnOutcome) (args : String) : Except String String :=
  let role := delegateRole args
  match swarmSpawnResult o with
  | .ok executionResult =>
    .ok (renderJson (.jobj
      [("result", .jstr executionResult), ("role", .jstr role), ("success", .jbool true)]))
  | .error e =>
    .ok (renderJson (.jobj
      [("error", .jstr ("Delegation Failed: " ++ e)), ("role", .jstr role),
       ("success", .jbool false)]))

/-! ### Length bookkeeping for the scanner

The Rust scan index strictly increases every outer iteration; these
lemmas record the corresponding fact that every envelope parse consumes
at least one character, which justifies the canonical fuel of
`run_extract` and lets different fuels be interchanged. -/

theorem skipWs_length_le : ∀ s : List Char, (skipWs s).length ≤ s.length := by
  intro s
  induction s with
  | nil => simp [skipWs]
  | cons c rest ih =>
    simp only [skipWs]
    split
    · exact Nat.le_succ_of_le ih
    · simp

theorem scanBracketArg_length_lt :
    ∀ (s : List Char) (st : ScanState) (a r : List Char),
      scanBracketArg st s = some (a, r) → r.length < s.length := by
  intro s
  induction s with
  | nil => intro st a r h; simp [scanBracketArg] at h
  | cons c rest ih =>
    intro st a r h
    simp only [scanBracketArg] at h
    split at h
    · simp only [Option.some.injEq, Prod.mk.injEq] at h
      simp [← h.2]
    · cases hrec : scanBracketArg (scanStep st c) rest with
      | none => rw [hrec] at h; simp at h
      | some p =>
        rw [hrec] at h
        simp only [Option.map_some', Option.some.injEq, Prod.mk.injEq] at h
        have := ih (scanStep st c) p.1 p.2 (by rw [hrec])
        rw [← h.2]
        exact Nat.lt_succ_of_lt this

theorem scanFenceArg_length_lt :
    ∀ (s : List Char) (iq : Bool) (qc : Char) (esc : Bool) (a r : List Char),
      scanFenceArg iq qc esc s = some (a, r) → r.length < s.length := by
  intro s
  induction s with
  | nil => intro iq qc esc a r h; simp [scanFenceArg] at h
  | cons c rest ih =>
    intro iq qc esc a r h
    simp only [scanFenceArg] at h
    split at h
    · simp only [Option.some.injEq, Prod.mk.injEq] at h
      rw [← h.2]
      simp only [List.drop_succ_cons, List.length_cons]
      have := List.length_drop 2 rest
      omega
    · cases hf : fenceStep iq qc esc c with
      | mk iq2 p2 =>
        rw [hf] at h
        cases hrec : scanFenceArg iq2 p2.1 p2.2 rest with
        | none => rw [hrec] at h; simp at h
        | some p =>
          rw [hrec] at h
          simp only [Option.map_some', Option.some.injEq, Prod.mk.injEq] at h
          have := ih iq2 p2.1 p2.2 p.1 p.2 (by rw [hrec])
          rw [← h.2]
          exact Nat.lt_succ_of_lt this

theorem parseEnvelope_length_lt (isMd : Bool) (s : List Char) (n a : String) (r : List Char)
    (h : parseEnvelope isMd s = some (n, a, r)) : r.length < s.length := by
  simp only [parseEnvelope] at h
  split at h
  case isTrue hcond =>
    have htail : (List.dropWhile isNameChar (skipWs s)).tail.length < s.length := by
      have h1 : (List.dropWhile isNameChar (skipWs s)).length ≤ (skipWs s).length :=
        (List.dropWhile_sublist _).length_le
      have h2 : (skipWs s).length ≤ s.length := skipWs_length_le s
      rcases hd : List.dropWhile isNameChar (skipWs s) with _ | ⟨c0, tl⟩
      · rw [hd] at hcond; simp at hcond
      · rw [hd] at h1; simp only [List.tail_cons, List.length_cons] at h1 ⊢; omega
    cases hs : (if isMd then scanFenceArg false (Char.ofNat 0) false (List.dropWhile isNameChar (skipWs s)).tail
        else scanBracketArg initScan (List.dropWhile isNameChar (skipWs s)).tail) with
    | none => rw [hs] at h; simp at h
    | some p =>
      rw [hs] at h
      simp only [Option.map_some', Option.some.injEq, Prod.mk.injEq] at h
      have hlt : p.2.length < (List.dropWhile isNameChar (skipWs s)).tail.length := by
        by_cases hmd : isMd = true
        · rw [if_pos hmd] at hs
          exact scanFenceArg_length_lt _ false (Char.ofNat 0) false p.1 p.2 hs
        · rw [if_neg hmd] at hs
          exact scanBracketArg_length_lt _ initScan p.1 p.2 hs
      rw [← h.2.2]
      omega
  case isFalse => simp at h

theorem extract_loop_congr (isReg : String → Bool) :
    ∀ (n : Nat) (s : List Char), s.length ≤ n → ∀ f1 f2, s.length ≤ f1 → s.length ≤ f2 →
      extract_loop isReg f1 s = extract_loop isReg f2 s := by
  intro n
  induction n with
  | zero =>
    intro s hs f1 f2 _ _
    have : s = [] := List.length_eq_zero.mp (Nat.le_zero.mp hs)
    subst this
    cases f1 <;> cases f2 <;> rfl
  | succ n ih =>
    intro s hs f1 f2 h1 h2
    cases s with
    | nil => cases f1 <;> cases f2 <;> rfl
    | cons c rest =>
      simp only [List.length_cons] at hs h1 h2
      cases f1 with
      | zero => omega
      | succ g1 =>
        cases f2 with
        | zero => omega
        | succ g2 =>
          simp only [extract_loop]
          cases hm : detectMarker (c :: rest) with
          | none => exact ih rest (by omega) g1 g2 (by omega) (by omega)
          | some m =>
            obtain ⟨mlen, isMd⟩ := m
            dsimp only
            cases hp : parseEnvelope isMd ((c :: rest).drop mlen) with
            | none => exact ih rest (by omega) g1 g2 (by omega) (by omega)
            | some v =>
              obtain ⟨name, arg, after⟩ := v
              dsimp only
              have hlen : after.length < rest.length + 1 := by
                have h3 := parseEnvelope_length_lt isMd ((c :: rest).drop mlen) name arg after hp
                have h4 : ((c :: rest).drop mlen).length ≤ (c :: rest).length := by
                  rw [List.length_drop]
                  omega
                simp only [List.length_cons] at h3 h4
                omega
              have heq := ih after (by omega) g1 g2 (by omega) (by omega)
              rw [heq]

theorem run_extract_nil (isReg : String → Bool) : run_extract isReg [] = [] := rfl

theorem run_extract_marker_none (isReg : String → Bool) (c : Char) (rest : List Char)
    (hm : detectMarker (c :: rest) = none) :
    run_extract isReg (c :: rest) = run_extract isReg rest := by
  simp only [run_extract, List.length_cons, extract_loop, hm]

theorem run_extract_unparsed (isReg : String → Bool) (c : Char) (rest : List Char)
    (mlen : Nat) (isMd : Bool)
    (hm : detectMarker (c :: rest) = some (mlen, isMd))
    (hp : parseEnvelope isMd ((c :: rest).drop mlen) = none) :
    run_extract isReg (c :: rest) = run_extract isReg rest := by
  simp only [run_extract, List.length_cons, extract_loop, hm, hp]

theorem run_extract_parsed (isReg : String → Bool) (c : Char) (rest : List Char)
    (mlen : Nat) (isMd : Bool) (name arg : String) (after : List Char)
    (hm : detectMarker (c :: rest) = some (mlen, isMd))
    (hp : parseEnvelope isMd ((c :: rest).drop mlen) = some (name, arg, after)) :
    run_extract isReg (c :: rest) =
      (if isReg name then [(name, arg)] else []) ++ run_extract isReg after := by
  have hlen : after.length < (c :: rest).length := by
    have h3 := parseEnvelope_length_lt isMd ((c :: rest).drop mlen) name arg after hp
    have h4 : ((c :: rest).drop mlen).length ≤ (c :: rest).length := by
      rw [List.length_drop]; omega
    omega
  simp only [List.length_cons] at hlen
  have hcongr : extract_loop isReg rest.length after = extract_loop isReg after.length after :=
    extract_loop_congr isReg rest.length after (by omega) rest.length after.length (by omega)
      (le_refl _)
  simp only [run_extract, List.length_cons, extract_loop, hm, hp]
  split
  · simp [hcongr]
  · simp [hcongr]

/-! ### Character-class and scanner support lemmas -/

theorem nameChar_not_ws (c : Char) (h : isNameChar c = true) : c.isWhitespace = false := by
  cases hws : c.isWhitespace
  · rfl
  · exfalso
    have h4 : c = ' ' ∨ c = '\t' ∨ c = '\x0d' ∨ c = '\n' := by
      simp [Char.isWhitespace] at hws
      tauto
    rcases h4 with h1 | h1 | h1 | h1 <;> subst h1 <;> exact absurd h (by decide)

theorem take_cons_head (c x : Char) (rest xs : List Char) (n : Nat)
    (h : (c :: rest).take n = x :: xs) : c = x := by
  cases n with
  | zero => simp at h
  | succ m =>
    rw [List.take_succ_cons] at h
    injection h

theorem detectMarker_cons_none (c : Char) (rest : List Char)
    (h1 : c ≠ '[') (h2 : c ≠ backtickChar) : detectMarker (c :: rest) = none := by
  have htc : toolCodeMarker = backtickChar :: "``tool_code".data := rfl
  have hjs : jsonMarker = backtickChar :: "``json".data := rfl
  have hA : ¬ ((c :: rest).head? = some '[') := by
    simp only [List.head?]
    intro hcon
    injection hcon with hh
    exact h1 hh
  have hB : ¬ ((c :: rest).take 12 = toolCodeMarker) := by
    intro hcon
    exact h2 (take_cons_head c backtickChar rest _ 12 (hcon.trans htc))
  have hC : ¬ ((c :: rest).take 7 = jsonMarker ∧ jsonPeekOk ((c :: rest).drop 7) = true) := by
    intro hcon
    exact h2 (take_cons_head c backtickChar rest _ 7 (hcon.1.trans hjs))
  unfold detectMarker
  rw [if_neg hA, if_neg hB, if_neg hC]

theorem detectMarker_bracket (t : List Char) : detectMarker ('[' :: t) = some (1, false) := by
  unfold detectMarker
  rw [if_pos (show ('[' :: t).head? = some '[' from rfl)]

theorem run_extract_clean_prefix (isReg : String → Bool) (pre s : List Char)
    (h : ∀ c ∈ pre, c ≠ '[' ∧ c ≠ backtickChar) :
    run_extract isReg (pre ++ s) = run_extract isReg s := by
  induction pre with
  | nil => simp
  | cons c pre ih =>
    have hc := h c (by simp)
    have hrest : ∀ x ∈ pre, x ≠ '[' ∧ x ≠ backtickChar := fun x hx => h x (by simp [hx])
    rw [List.cons_append,
      run_extract_marker_none isReg c (pre ++ s) (detectMarker_cons_none c _ hc.1 hc.2)]
    exact ih hrest

theorem run_extract_clean_nil (isReg : String → Bool) (s : List Char)
    (h : ∀ c ∈ s, c ≠ '[' ∧ c ≠ backtickChar) : run_extract isReg s = [] := by
  have := run_extract_clean_prefix isReg s [] h
  simpa using this

theorem scanBracket_noEarlyClose :
    ∀ (argL : List Char) (st : ScanState) (post : List Char),
      noEarlyClose st argL = true →
      scanBracketArg st (argL ++ ']' :: post) = some (argL, post) := by
  intro argL
  induction argL with
  | nil =>
    intro st post h
    simp only [noEarlyClose] at h
    simp only [List.nil_append, scanBracketArg]
    rw [if_pos]
    simp only [closesBracket, Bool.and_eq_true] at h ⊢
    exact ⟨⟨⟨h.1.1, h.1.2⟩, by simp⟩, h.2⟩
  | cons c tl ih =>
    intro st post h
    simp only [noEarlyClose, Bool.and_eq_true, Bool.not_eq_true'] at h
    simp only [List.cons_append, scanBracketArg]
    rw [if_neg (by simp [h.1])]
    simp only [List.append_eq]
    rw [ih (scanStep st c) post h.2]
    rfl

theorem takeWhile_all_append (p : Char → Bool) (xs ys : List Char) (y : Char)
    (hall : ∀ c ∈ xs, p c = true) (hy : p y = false) :
    (xs ++ y :: ys).takeWhile p = xs ∧ (xs ++ y :: ys).dropWhile p = y :: ys := by
  induction xs with
  | nil => simp [List.takeWhile, List.dropWhile, hy]
  | cons x xs ih =>
    have hx := hall x (by simp)
    have hrest : ∀ c ∈ xs, p c = true := fun c hc => hall c (by simp [hc])
    obtain ⟨h1, h2⟩ := ih hrest
    constructor
    · simp [List.takeWhile, hx, h1]
    · simp [List.dropWhile, hx, h2]

theorem parseEnvelope_bracket (nameL argL post : List Char)
    (hname : ∀ c ∈ nameL, isNameChar c = true) (hlen : 2 ≤ nameL.length)
    (harg : noEarlyClose initScan argL = true) :
    parseEnvelope false (nameL ++ ':' :: (argL ++ ']' :: post)) =
      some (String.mk nameL, strTrim (String.mk argL), post) := by
  obtain ⟨c0, nameTl, rfl⟩ : ∃ c0 tl, nameL = c0 :: tl := by
    cases nameL with
    | nil => simp at hlen
    | cons a b => exact ⟨a, b, rfl⟩
  have hc0 : isNameChar c0 = true := hname c0 (by simp)
  have hskip : skipWs ((c0 :: nameTl) ++ ':' :: (argL ++ ']' :: post)) =
      (c0 :: nameTl) ++ ':' :: (argL ++ ']' :: post) := by
    simp only [List.cons_append, skipWs]
    rw [if_neg (by simp [nameChar_not_ws c0 hc0])]
    simp only [List.append_eq]
  have hcolon : isNameChar ':' = false := by decide
  obtain ⟨htake, hdrop⟩ :=
    takeWhile_all_append isNameChar (c0 :: nameTl) (argL ++ ']' :: post) ':' hname hcolon
  simp only [parseEnvelope, hskip, htake, hdrop]
  rw [if_pos ⟨hlen, rfl⟩]
  simp only [Bool.false_eq_true, if_false, List.tail_cons]
  rw [scanBracket_noEarlyClose argL initScan post harg]
  rfl

/-! ### Claims C3, C4, C5 — the invocation extractor -/

/-- C3: for every well-formed bracket invocation `[NAME: arg]` whose name
matches the uppercase/digit/underscore shape with length ≥ 2 and is
registered, embedded in surrounding text free of scan markers, the
extractor emits exactly the pair `(NAME, trim arg)`; the argument may
contain arbitrarily nested balanced brackets and quote-protected `]`
characters (any `argL` with `noEarlyClose initScan argL`).  The concrete
scenario of the claim is the first conjunct of `C3_witness`. -/
theorem C3_bracket_extraction (content : String) (isReg : String → Bool)
    (pre nameL argL post : List Char)
    (hsplit : content.data = pre ++ '[' :: (nameL ++ ':' :: (argL ++ ']' :: post)))
    (hpre : ∀ c ∈ pre, c ≠ '[' ∧ c ≠ backtickChar)
    (hpost : ∀ c ∈ post, c ≠ '[' ∧ c ≠ backtickChar)
    (hname : ∀ c ∈ nameL, isNameChar c = true)
    (hlen : 2 ≤ nameL.length)
    (harg : noEarlyClose initScan argL = true)
    (hreg : isReg (String.mk nameL) = true) :
    extract_tools content isReg = [(String.mk nameL, strTrim (String.mk argL))] := by
  unfold extract_tools
  rw [hsplit, run_extract_clean_prefix isReg pre _ hpre]
  have hm := detectMarker_bracket (nameL ++ ':' :: (argL ++ ']' :: post))
  have hp : parseEnvelope false
      (('[' :: (nameL ++ ':' :: (argL ++ ']' :: post))).drop 1) =
      some (String.mk nameL, strTrim (String.mk argL), post) := by
    simpa using parseEnvelope_bracket nameL argL post hname hlen harg
  rw [run_extract_parsed isReg '[' _ 1 false _ _ post hm hp, if_pos hreg,
    run_extract_clean_nil isReg post hpost]
  rfl

/-- Witness for C3: the claim's concrete scenario (`READ_FILE` with a
quoted path, quotes preserved in the argument), plus an argument with a
literal `]` inside a quoted substring. -/
theorem C3_witness :
    extract_tools "Let me check. [READ_FILE: \"/tmp/x.txt\"] done."
      (fun n => n == "READ_FILE") = [("READ_FILE", "\"/tmp/x.txt\"")] ∧
    extract_tools "[AB: \"x]y\"]" (fun n => n == "AB") = [("AB", "\"x]y\"")] := by
  constructor
  · exact C3_bracket_extraction _ _ "Let me check. ".data "READ_FILE".data
      " \"/tmp/x.txt\"".data " done.".data (by decide) (by decide) (by decide)
      (by decide) (by decide) (by decide) (by decide)
  · exact C3_bracket_extraction _ _ [] "AB".data " \"x]y\"".data [] (by decide)
      (by decide) (by decide) (by decide) (by decide) (by decide) (by decide)

/-- C4 as stated is false: a text with zero `[` characters can still
produce an invocation through the markdown-fence envelopes.  The text
`"```tool_code AB: x```"` contains no `[`, yet with `AB` registered the
extractor returns a non-empty list. -/
theorem C4_counterexample :
    (∀ c ∈ ("```tool_code AB: x```" : String).data, c ≠ '[') ∧
    extract_tools "```tool_code AB: x```" (fun n => n == "AB") = [("AB", "x")] := by
  constructor
  · decide
  · rfl

/-- C4 (amended): for every input text containing zero `[` characters
and zero backtick characters (so that no fenced envelope can open
either), and every registry predicate, the extractor returns the empty
list. -/
theorem C4_no_markers_no_tools (content : String) (isReg : String → Bool)
    (h : ∀ c ∈ content.data, c ≠ '[' ∧ c ≠ backtickChar) :
    extract_tools content isReg = [] :=
  run_extract_clean_nil isReg content.data h

/-- Witness for the amended C4 at a concrete bracket-free, fence-free
text and the always-true registry. -/
theorem C4_witness : extract_tools "no tools in this text." (fun _ => true) = [] :=
  C4_no_markers_no_tools "no tools in this text." (fun _ => true) (by decide)

/-- C5 as stated is false: an envelope discarded because its
(well-formed) name is unregistered is skipped as a whole, not re-scanned
from just after its opening delimiter.  With only `CD` registered,
`[CD: x]` alone is extracted, but inside the discarded `[AB: …]`
envelope it is lost. -/
theorem C5_counterexample :
    extract_tools "[CD: x]" (fun n => n == "CD") = [("CD", "x")] ∧
    extract_tools "[AB: [CD: x]]" (fun n => n == "CD") = [] := by
  exact ⟨rfl, rfl⟩

/-- C5 (amended): when the name check fails (bad shape, or unterminated
envelope — `parseEnvelope` returns `none`), the scan resumes immediately
after the opening delimiter; but when a well-formed envelope's name is
simply unregistered, the scan resumes after the whole envelope, so valid
invocations inside its extent are not emitted. -/
theorem C5_resume_behaviour (isReg : String → Bool) (rest : List Char) :
    (parseEnvelope false rest = none →
      run_extract isReg ('[' :: rest) = run_extract isReg rest) ∧
    (∀ name arg after, parseEnvelope false rest = some (name, arg, after) →
      isReg name = false →
      run_extract isReg ('[' :: rest) = run_extract isReg after) := by
  constructor
  · intro hp
    exact run_extract_unparsed isReg '[' rest 1 false (detectMarker_bracket rest)
      (by simpa using hp)
  · intro name arg after hp hreg
    rw [run_extract_parsed isReg '[' rest 1 false name arg after (detectMarker_bracket rest)
      (by simpa using hp), if_neg (by simp [hreg])]
    simp

/-- Witness for the amended C5: the discarded `[AB: [CD: x]]` envelope
resumes after its closing bracket (the empty rest), not inside it. -/
theorem C5_witness :
    run_extract (fun n => n == "CD") ('[' :: ("AB: [CD: x]]" : String).data) =
      run_extract (fun n => n == "CD") [] :=
  (C5_resume_behaviour (fun n => n == "CD") ("AB: [CD: x]]" : String).data).2
    "AB" "[CD: x]" [] (by rfl) (by rfl)

/-! ### Claim C1 — the write-safety gate -/

/-- C1: an invocation whose (case-insensitively matched) name is in the
destructive set and whose argument yields a target path is refused —
for every skill registry, its dispatch result is the synthesized
"read the path first" failure, which is placed in the round's result
list — exactly when the absolutized path is not an exempt internal path
and does not occur verbatim in the joined history or the system prompt;
otherwise the skill is executed. -/
theorem C1_write_safety_gate (env : GateEnv) (history sysPrompt name arg p : String)
    (hd : destructive_tools.contains (strLower name) = true)
    (hp : extractVerifyPath env.jsonParse name arg = some p) :
    (isInternalPath (ensure_absolute env.home env.rootName p) = false →
     strContains history (ensure_absolute env.home env.rootName p) = false →
     strContains sysPrompt (ensure_absolute env.home env.rootName p) = false →
     (∀ skills, dispatchTool env skills history sysPrompt (name, arg) =
        (name, .error (refusalMsg (ensure_absolute env.home env.rootName p)))) ∧
     (∀ skills invs, (name, arg) ∈ invs →
        (name, Except.error (refusalMsg (ensure_absolute env.home env.rootName p))) ∈
          runRound env skills history sysPrompt invs)) ∧
    ((isInternalPath (ensure_absolute env.home env.rootName p) = true ∨
      strContains history (ensure_absolute env.home env.rootName p) = true ∨
      strContains sysPrompt (ensure_absolute env.home env.rootName p) = true) →
     ∀ skills, dispatchTool env skills history sysPrompt (name, arg) =
        (name, runSkill skills name arg)) := by
  constructor
  · intro h1 h2 h3
    have hg : gateRefusal env history sysPrompt name arg =
        some (refusalMsg (ensure_absolute env.home env.rootName p)) := by
      simp only [gateRefusal, hd, if_true, hp]
      rw [if_pos ⟨h1, h2, h3⟩]
    constructor
    · intro skills
      simp [dispatchTool, hg]
    · intro skills invs hmem
      have : dispatchTool env skills history sysPrompt (name, arg) =
          (name, .error (refusalMsg (ensure_absolute env.home env.rootName p))) := by
        simp [dispatchTool, hg]
      rw [← this]
      exact List.mem_map_of_mem _ hmem
  · intro hOr skills
    have hg : gateRefusal env history sysPrompt name arg = none := by
      simp only [gateRefusal, hd, if_true, hp]
      rw [if_neg]
      intro hcon
      rcases hOr with h | h | h
      · rw [hcon.1] at h; exact Bool.false_ne_true h
      · rw [hcon.2.1] at h; exact Bool.false_ne_true h
      · rw [hcon.2.2] at h; exact Bool.false_ne_true h
    simp [dispatchTool, hg]

/-- Witness for C1: with a non-JSON argument, `WRITE_FILE` targeting the
unmentioned `/tmp/b.txt` is refused (regardless of the registry), while
targeting `/tmp/a.txt`, which occurs verbatim in the history, executes
the skill. -/
theorem C1_witness :
    dispatchTool ⟨fun _ => none, "/home/u", ".openspore"⟩ (fun _ => none)
        "please edit /tmp/a.txt" "sys" ("WRITE_FILE", "/tmp/b.txt new content") =
      ("WRITE_FILE", Except.error (refusalMsg "/tmp/b.txt")) ∧
    dispatchTool ⟨fun _ => none, "/home/u", ".openspore"⟩ (fun _ => none)
        "please edit /tmp/a.txt" "sys" ("WRITE_FILE", "/tmp/a.txt new content") =
      ("WRITE_FILE", runSkill (fun _ => none) "WRITE_FILE" "/tmp/a.txt new content") := by
  constructor
  · exact ((C1_write_safety_gate ⟨fun _ => none, "/home/u", ".openspore"⟩
      "please edit /tmp/a.txt" "sys" "WRITE_FILE" "/tmp/b.txt new content" "/tmp/b.txt"
      (by rfl) (by rfl)).1 (by rfl) (by rfl) (by rfl)).1 (fun _ => none)
  · exact (C1_write_safety_gate ⟨fun _ => none, "/home/u", ".openspore"⟩
      "please edit /tmp/a.txt" "sys" "WRITE_FILE" "/tmp/a.txt new content" "/tmp/a.txt"
      (by rfl) (by rfl)).2 (Or.inr (Or.inl (by rfl))) (fun _ => none)

/-! ### Claims C2 and C8 — the thinking loop -/

theorem think_loop_depth_exceeded (env : ThinkEnv) (sysPrompt : String)
    (fuel depth : Nat) (messages : List Message) (content : String) (rounds : Nat)
    (h : max_depth ≤ depth) :
    think_loop env sysPrompt fuel depth messages content rounds =
      ⟨content ++ depthNotice, rounds⟩ := by
  unfold think_loop
  rw [if_pos h]

theorem think_loop_step_tools (env : ThinkEnv) (sysPrompt : String)
    (fuel depth : Nat) (messages : List Message) (content : String) (rounds : Nat)
    (hd : ¬ max_depth ≤ depth)
    (ht : (extract_tools content env.loaderHas).isEmpty = false) :
    think_loop env sysPrompt (fuel + 1) depth messages content rounds =
      match env.complete (feedMessages env sysPrompt messages content) with
      | .ok newContent =>
        think_loop env sysPrompt fuel (depth + 1) (feedMessages env sysPrompt messages content)
          newContent (rounds + 1)
      | .error _ => ⟨content, rounds + 1⟩ := by
  conv_lhs => unfold think_loop
  rw [if_neg hd]
  simp only [ht, Bool.false_and, Bool.false_eq_true, if_false]

theorem think_loop_step_selfcorrect (env : ThinkEnv) (sysPrompt : String)
    (fuel depth : Nat) (messages : List Message) (content : String) (rounds : Nat)
    (hd : ¬ max_depth ≤ depth)
    (ht : (extract_tools content env.loaderHas).isEmpty = true)
    (hh : hasMarkdownHint content = true) :
    think_loop env sysPrompt (fuel + 1) depth messages content rounds =
      match env.complete (correctionMessages messages content) with
      | .ok newContent =>
        think_loop env sysPrompt fuel (depth + 1) (correctionMessages messages content)
          newContent rounds
      | .error _ => ⟨content, rounds⟩ := by
  conv_lhs => unfold think_loop
  rw [if_neg hd]
  simp only [ht, hh, Bool.and_self, if_true]

theorem think_loop_all_tools (env : ThinkEnv) (sysPrompt : String)
    (hok : ∀ msgs, (env.complete msgs).isOk = true)
    (htools : ∀ msgs c, env.complete msgs = .ok c →
      (extract_tools c env.loaderHas).isEmpty = false) :
    ∀ (k fuel depth : Nat) (messages : List Message) (content : String) (rounds : Nat),
      max_depth - depth = k → k ≤ fuel →
      (extract_tools content env.loaderHas).isEmpty = false →
      (think_loop env sysPrompt fuel depth messages content rounds).toolRounds = rounds + k ∧
      ∃ c2, (think_loop env sysPrompt fuel depth messages content rounds).result =
        c2 ++ depthNotice := by
  intro k
  induction k with
  | zero =>
    intro fuel depth messages content rounds hk _ _
    have hdep : max_depth ≤ depth := by omega
    rw [think_loop_depth_exceeded env sysPrompt fuel depth messages content rounds hdep]
    exact ⟨rfl, content, rfl⟩
  | succ k ih =>
    intro fuel depth messages content rounds hk hf ht
    have hdep : ¬ max_depth ≤ depth := by omega
    cases fuel with
    | zero => omega
    | succ fuel =>
      rw [think_loop_step_tools env sysPrompt fuel depth messages content rounds hdep ht]
      cases hc : env.complete (feedMessages env sysPrompt messages content) with
      | error e =>
        have := hok (feedMessages env sysPrompt messages content)
        rw [hc] at this
        exact absurd this (by simp [Except.isOk, Except.toBool])
      | ok newContent =>
        have ht2 := htools _ newContent hc
        obtain ⟨hr, hres⟩ := ih fuel (depth + 1) (feedMessages env sysPrompt messages content)
          newContent (rounds + 1) (by omega) (by omega) ht2
        exact ⟨by rw [hr]; omega, hres⟩

/-- C2: with `max_depth = 24`, a run in which every completion succeeds
and every completion output contains at least one valid registered tool
invocation performs exactly `max_depth` tool-executing rounds and then
returns the current content with the fixed truncation notice appended
(a graceful return value, not an error). -/
theorem C2_depth_bound (env : ThinkEnv) (sysPrompt userPrompt : String)
    (hok : ∀ msgs, (env.complete msgs).isOk = true)
    (htools : ∀ msgs c, env.complete msgs = .ok c →
      extract_tools c env.loaderHas ≠ []) :
    max_depth = 24 ∧
    (think env sysPrompt userPrompt).toolRounds = max_depth ∧
    ∃ c2, (think env sysPrompt userPrompt).result = c2 ++ depthNotice := by
  have htools2 : ∀ msgs c, env.complete msgs = .ok c →
      (extract_tools c env.loaderHas).isEmpty = false := by
    intro msgs c hc
    cases hev : extract_tools c env.loaderHas
    · exact absurd hev (htools msgs c hc)
    · rfl
  refine ⟨rfl, ?_⟩
  cases hc : env.complete [⟨"system", sysPrompt⟩, ⟨"user", userPrompt⟩] with
  | error e =>
    exfalso
    have := hok [⟨"system", sysPrompt⟩, ⟨"user", userPrompt⟩]
    rw [hc] at this
    exact absurd this (by simp [Except.isOk, Except.toBool])
  | ok c =>
    have hthink : think env sysPrompt userPrompt =
        think_loop env sysPrompt max_depth 0
          [⟨"system", sysPrompt⟩, ⟨"user", userPrompt⟩] c 0 := by
      simp only [think, hc]
    rw [hthink]
    obtain ⟨hr, hres⟩ := think_loop_all_tools env sysPrompt hok htools2 max_depth max_depth 0
      [⟨"system", sysPrompt⟩, ⟨"user", userPrompt⟩] c 0 (by omega) (le_refl _)
      (htools2 _ c hc)
    exact ⟨by rw [hr]; omega, hres⟩

/-- Witness for C2: a completion oracle that always answers with a
registered invocation; the loop executes exactly 24 tool rounds and
returns with the truncation notice appended. -/
theorem C2_witness :
    max_depth = 24 ∧
    (think ⟨fun _ => .ok "[AB: go]", ⟨fun _ => none, "/h", ".r"⟩,
        fun n => if n == "ab" then some (fun _ => .ok "done") else none⟩
      "s" "u").toolRounds = max_depth ∧
    ∃ c2, (think ⟨fun _ => .ok "[AB: go]", ⟨fun _ => none, "/h", ".r"⟩,
        fun n => if n == "ab" then some (fun _ => .ok "done") else none⟩
      "s" "u").result = c2 ++ depthNotice :=
  C2_depth_bound _ "s" "u" (fun _ => rfl)
    (fun _ c h => by injection h with h2; subst h2; decide)

/-- C8 as stated is false for in-loop completion failures: with an
oracle whose initial completion answers `"[AB: do]"` (a valid
invocation) but whose second completion fails, the loop terminates
because of upstream completion failure yet returns the last assistant
content unchanged — not an `"Error: …"` string (the error is only
emitted as an observer event, thinking.rs lines 203–209). -/
theorem C8_counterexample :
    (think ⟨fun msgs => if msgs.length == 2 then .ok "[AB: do]" else .error "boom",
        ⟨fun _ => none, "/h", ".r"⟩,
        fun n => if n == "ab" then some (fun _ => .ok "done") else none⟩
      "sys" "hi").result = "[AB: do]" ∧
    strStartsWith (think ⟨fun msgs => if msgs.length == 2 then .ok "[AB: do]" else .error "boom",
        ⟨fun _ => none, "/h", ".r"⟩,
        fun n => if n == "ab" then some (fun _ => .ok "done") else none⟩
      "sys" "hi").result "Error" = false := by
  exact ⟨rfl, rfl⟩

/-- C8 (amended): the loop's terminal return values are — an explicit
`"Errors: …"` string when the initial completion fails; the most recent
successful content, unchanged (with no error marker), when an in-loop
completion fails, whether after a tool round (the round still counted)
or during the self-correction re-completion (no round executed); and
the last content with the truncation notice appended (never an error)
when the depth limit is reached. -/
theorem C8_termination_returns (env : ThinkEnv) (sysPrompt userPrompt : String) :
    (∀ e, env.complete [⟨"system", sysPrompt⟩, ⟨"user", userPrompt⟩] = .error e →
      (think env sysPrompt userPrompt).result = "Errors: " ++ e) ∧
    (∀ fuel depth messages content rounds e, ¬ max_depth ≤ depth →
      (extract_tools content env.loaderHas).isEmpty = false →
      env.complete (feedMessages env sysPrompt messages content) = .error e →
      think_loop env sysPrompt (fuel + 1) depth messages content rounds =
        ⟨content, rounds + 1⟩) ∧
    (∀ fuel depth messages content rounds e, ¬ max_depth ≤ depth →
      (extract_tools content env.loaderHas).isEmpty = true →
      hasMarkdownHint content = true →
      env.complete (correctionMessages messages content) = .error e →
      think_loop env sysPrompt (fuel + 1) depth messages content rounds =
        ⟨content, rounds⟩) ∧
    (∀ fuel depth messages content rounds, max_depth ≤ depth →
      think_loop env sysPrompt fuel depth messages content rounds =
        ⟨content ++ depthNotice, rounds⟩) := by
  refine ⟨?_, ?_, ?_, ?_⟩
  · intro e he
    simp only [think, he]
  · intro fuel depth messages content rounds e hd ht hc
    rw [think_loop_step_tools env sysPrompt fuel depth messages content rounds hd ht, hc]
  · intro fuel depth messages content rounds e hd ht hh hc
    rw [think_loop_step_selfcorrect env sysPrompt fuel depth messages content rounds hd ht hh,
      hc]
  · intro fuel depth messages content rounds h
    exact think_loop_depth_exceeded env sysPrompt fuel depth messages content rounds h

/-- Witness for the amended C8, at concrete oracles: an initial
completion failure returns the `"Errors: …"` string; an in-loop failure
after one tool round returns the round's content with one round
counted; a failure of the self-correction re-completion (markdown-hint
content, no extractable tools) returns the content with no round
counted; a depth-exceeded state returns the content with the notice. -/
theorem C8_witness :
    (think ⟨fun _ => .error "down", ⟨fun _ => none, "/h", ".r"⟩, fun _ => none⟩
      "s" "u").result = "Errors: " ++ "down" ∧
    think_loop ⟨fun msgs => if msgs.length == 2 then .ok "[AB: do]" else .error "boom",
        ⟨fun _ => none, "/h", ".r"⟩,
        fun n => if n == "ab" then some (fun _ => .ok "done") else none⟩
      "sys" 24 0 [⟨"system", "sys"⟩, ⟨"user", "hi"⟩] "[AB: do]" 0 = ⟨"[AB: do]", 1⟩ ∧
    think_loop ⟨fun msgs => if msgs.length == 2 then .ok "x" else .error "boom",
        ⟨fun _ => none, "/h", ".r"⟩, fun _ => none⟩
      "sys" 24 0 [⟨"system", "sys"⟩, ⟨"user", "hi"⟩] "```python\nprint(1)\n```" 0 =
      ⟨"```python\nprint(1)\n```", 0⟩ ∧
    think_loop ⟨fun _ => .error "x", ⟨fun _ => none, "/h", ".r"⟩, fun _ => none⟩
      "s" 0 24 [] "partial" 5 = ⟨"partial" ++ depthNotice, 5⟩ := by
  refine ⟨?_, ?_, ?_, ?_⟩
  · exact (C8_termination_returns _ "s" "u").1 "down" rfl
  · exact (C8_termination_returns _ "sys" "u2").2.1 23 0 _ "[AB: do]" 0 "boom"
      (by decide) (by rfl) (by rfl)
  · exact (C8_termination_returns _ "sys" "u2").2.2.1 23 0 _ "```python\nprint(1)\n```" 0
      "boom" (by decide) (by rfl) (by rfl) (by rfl)
  · exact (C8_termination_returns _ "s" "u3").2.2.2 0 24 [] "partial" 5 (by decide)

/-! ### Claims C6 and C7 — the retry completion wrapper -/

theorem retryable_not_success (s : Nat) (h : isRetryableStatus s = true) :
    isSuccessStatus s = false := by
  simp only [isRetryableStatus, Bool.or_eq_true, beq_iff_eq, decide_eq_true_eq] at h
  rcases h with h | h
  · subst h; rfl
  · have hlt : ¬ (s < 300) := by omega
    simp [isSuccessStatus, hlt]

/-- C6: the wrapper retries only transiently-classified failures (429
or ≥ 500), up to 3 total attempts, with backoff 1s then 2s: two
retryable failures followed by a success return the successful content
on the third attempt after 1000 + 2·1000 ms of accumulated backoff; a
non-retryable status returns the terminal error after the first attempt
with no backoff; three retryable failures exhaust the ceiling and
return the terminal error carrying the last status and the attempt
count. -/
theorem C6_retry_policy (respond : Nat → HttpStep) :
    (∀ s1 s2 s3 b1 b2 j,
      respond 1 = .response s1 b1 → isRetryableStatus s1 = true →
      respond 2 = .response s2 b2 → isRetryableStatus s2 = true →
      respond 3 = .response s3 (.ok j) → isSuccessStatus s3 = true →
      brain_complete respond = ⟨.ok ((contentPath j).getD ""), 3, 3000⟩ ∧
        (1000 + 2 * 1000 : Nat) ≤ 3000) ∧
    (∀ s b, respond 1 = .response s b →
      isSuccessStatus s = false → isRetryableStatus s = false →
      brain_complete respond =
        ⟨.error ("API Error: " ++ toString s ++ " (after " ++ toString 1 ++ " attempts)"),
          1, 0⟩) ∧
    (∀ s1 s2 s3 b1 b2 b3,
      respond 1 = .response s1 b1 → isRetryableStatus s1 = true →
      respond 2 = .response s2 b2 → isRetryableStatus s2 = true →
      respond 3 = .response s3 b3 → isRetryableStatus s3 = true →
      brain_complete respond =
        ⟨.error ("API Error: " ++ toString s3 ++ " (after " ++ toString 3 ++ " attempts)"),
          3, 3000⟩) := by
  refine ⟨?_, ?_, ?_⟩
  · intro s1 s2 s3 b1 b2 j h1 hr1 h2 hr2 h3 hs3
    refine ⟨?_, by norm_num⟩
    simp [brain_complete, complete_loop, h1, h2, h3, hr1, hr2, hs3, max_attempts,
      retryable_not_success s1 hr1, retryable_not_success s2 hr2]
  · intro s b h1 hs hr
    simp [brain_complete, complete_loop, h1, hs, hr]
  · intro s1 s2 s3 b1 b2 b3 h1 hr1 h2 hr2 h3 hr3
    simp [brain_complete, complete_loop, h1, h2, h3, hr1, hr2, hr3, max_attempts,
      retryable_not_success s1 hr1, retryable_not_success s2 hr2,
      retryable_not_success s3 hr3]

/-- Witness for C6, at concrete status sequences: 429 then 503 then a
200 with a well-formed body; a single 400; and 429, 500, 503. -/
theorem C6_witness :
    brain_complete (fun a => if a == 1 then .response 429 (.error "e1")
      else if a == 2 then .response 503 (.error "e2")
      else .response 200 (.ok (JValue.jobj [("choices", JValue.jarr [JValue.jobj
        [("message", JValue.jobj [("content", JValue.jstr "hello")])]])]))) =
      ⟨.ok "hello", 3, 3000⟩ ∧
    brain_complete (fun _ => .response 400 (.error "bad request")) =
      ⟨.error ("API Error: " ++ toString 400 ++ " (after 1 attempts)"), 1, 0⟩ ∧
    brain_complete (fun a => if a == 1 then .response 429 (.error "e1")
      else if a == 2 then .response 500 (.error "e2")
      else .response 503 (.error "e3")) =
      ⟨.error ("API Error: " ++ toString 503 ++ " (after 3 attempts)"), 3, 3000⟩ := by
  refine ⟨?_, ?_, ?_⟩
  · exact ((C6_retry_policy _).1 429 503 200 (.error "e1") (.error "e2")
      (JValue.jobj [("choices", JValue.jarr [JValue.jobj
        [("message", JValue.jobj [("content", JValue.jstr "hello")])]])])
      rfl rfl rfl rfl rfl rfl).1
  · exact (C6_retry_policy _).2.1 400 (.error "bad request") rfl rfl rfl
  · exact (C6_retry_policy _).2.2 429 500 503 (.error "e1") (.error "e2") (.error "e3")
      rfl rfl rfl rfl rfl rfl

/-- C7 as stated is false: on a success status whose JSON body lacks
the `choices[0].message.content` field, the wrapper returns `Ok` with
the empty string (the `as_str().unwrap_or("")` default of api.rs line
39), not an error. -/
theorem C7_counterexample :
    brain_complete (fun _ => .response 200 (.ok (JValue.jobj []))) = ⟨.ok "", 1, 0⟩ := by
  rfl

/-- C7 (amended): on a success status, a body that parses as JSON but
lacks the extracted content field yields `Ok ""` (the `unwrap_or`
default); only a body that fails to parse at all is surfaced as an
error. -/
theorem C7_missing_field (respond : Nat → HttpStep) :
    (∀ s j, respond 1 = .response s (.ok j) → isSuccessStatus s = true →
      contentPath j = none → brain_complete respond = ⟨.ok "", 1, 0⟩) ∧
    (∀ s m, respond 1 = .response s (.error m) → isSuccessStatus s = true →
      brain_complete respond = ⟨.error m, 1, 0⟩) := by
  constructor
  · intro s j h1 hs hcp
    simp [brain_complete, complete_loop, h1, hs, hcp]
  · intro s m h1 hs
    simp [brain_complete, complete_loop, h1, hs]

/-- Witness for the amended C7: a 204 with a body whose `choices` array
is empty yields `Ok ""`; a 200 whose body fails to parse yields the
parse error. -/
theorem C7_witness :
    brain_complete (fun _ => .response 204 (.ok (JValue.jobj [("choices", JValue.jarr [])]))) =
      ⟨.ok "", 1, 0⟩ ∧
    brain_complete (fun _ => .response 200 (.error "invalid json")) =
      ⟨.error "invalid json", 1, 0⟩ := by
  constructor
  · exact (C7_missing_field _).1 204 (JValue.jobj [("choices", JValue.jarr [])]) rfl rfl rfl
  · exact (C7_missing_field _).2 200 "invalid json" rfl rfl

/-! ### Claim C9 — the bounded sub-agent spawner -/

theorem filter_update_to_running (n : Nat) (f : Fin n → JobState) (i : Fin n) :
    (Finset.univ.filter (fun j => Function.update f i JobState.running j = JobState.running)) =
      insert i (Finset.univ.filter (fun j => f j = JobState.running)) := by
  ext j
  simp only [Finset.mem_filter, Finset.mem_univ, true_and, Finset.mem_insert]
  by_cases hj : j = i
  · subst hj
    simp [Function.update_same]
  · simp [Function.update_noteq hj, hj]

theorem filter_update_off (n : Nat) (f : Fin n → JobState) (i : Fin n) (v : JobState)
    (hv : v ≠ JobState.running) :
    (Finset.univ.filter (fun j => Function.update f i v j = JobState.running)) =
      (Finset.univ.filter (fun j => f j = JobState.running)).erase i := by
  ext j
  simp only [Finset.mem_filter, Finset.mem_univ, true_and, Finset.mem_erase]
  by_cases hj : j = i
  · subst hj
    simp [Function.update_same, hv]
  · simp [Function.update_noteq hj, hj, and_comm]

/-- C9 as stated is false: the timeout path of `SwarmManager::spawn`
releases the permit without killing the child (swarm lib.rs 60–65, per
the source's own comment), so a timed-out subprocess keeps running
outside the permit accounting.  In the reachable state `swarmOver8`
(six jobs acquire, one times out and is abandoned alive, a seventh
acquires the freed permit) seven subprocesses are live at once, more
than the pool size 6. -/
theorem C9_counterexample :
    SwarmReachable 7 swarmOver8 ∧ swarmPermits = 6 ∧
    liveCount 7 swarmOver8 = 7 ∧ runningCount 7 swarmOver8 = 6 := by
  have r0 : SwarmReachable 7 swarmOver0 := SwarmReachable.init
  have r1 : SwarmReachable 7 swarmOver1 :=
    SwarmReachable.step _ _ r0 (SwarmStep.acquire swarmOver0 0 (by decide) (by decide))
  have r2 : SwarmReachable 7 swarmOver2 :=
    SwarmReachable.step _ _ r1 (SwarmStep.acquire swarmOver1 1 (by decide) (by decide))
  have r3 : SwarmReachable 7 swarmOver3 :=
    SwarmReachable.step _ _ r2 (SwarmStep.acquire swarmOver2 2 (by decide) (by decide))
  have r4 : SwarmReachable 7 swarmOver4 :=
    SwarmReachable.step _ _ r3 (SwarmStep.acquire swarmOver3 3 (by decide) (by decide))
  have r5 : SwarmReachable 7 swarmOver5 :=
    SwarmReachable.step _ _ r4 (SwarmStep.acquire swarmOver4 4 (by decide) (by decide))
  have r6 : SwarmReachable 7 swarmOver6 :=
    SwarmReachable.step _ _ r5 (SwarmStep.acquire swarmOver5 5 (by decide) (by decide))
  have r7 : SwarmReachable 7 swarmOver7 :=
    SwarmReachable.step _ _ r6 (SwarmStep.finishTimeout swarmOver6 0 (by decide))
  have r8 : SwarmReachable 7 swarmOver8 :=
    SwarmReachable.step _ _ r7 (SwarmStep.acquire swarmOver7 6 (by decide) (by decide))
  exact ⟨r8, rfl, by decide, by decide⟩

/-- C9 (amended): in every state reachable by any interleaving of
delegated jobs, at most `swarmPermits = 6` jobs are inside their
spawn+wait lifetime (holding a permit), available permits plus
permit-holding jobs always equal 6 (a job beyond the six must wait,
since `acquire` requires an available permit), and the permit is
released on every exit path — success, non-zero exit, spawn error,
timeout — so when all jobs are done every permit is back (no leak).
The bound does not extend to live OS subprocesses: a timed-out child is
abandoned alive, as `C9_counterexample` shows. -/
theorem C9_permit_bound (n : Nat) (s : SwarmState n) (h : SwarmReachable n s) :
    swarmPermits = 6 ∧
    runningCount n s ≤ swarmPermits ∧
    s.avail + runningCount n s = swarmPermits ∧
    (allDone n s → s.avail = swarmPermits) := by
  have main : s.avail + runningCount n s = swarmPermits := by
    induction h with
    | init =>
      have h0 : (Finset.univ.filter
          (fun j : Fin n => (swarmInit n).jobs j = JobState.running)) = ∅ := by
        rw [Finset.filter_eq_empty_iff]
        intro j _
        simp [swarmInit]
      simp [runningCount, h0, swarmInit]
    | step s s2 hr hstep ih =>
      cases hstep with
      | acquire i hw hp =>
        have hnm : i ∉ Finset.univ.filter (fun j => s.jobs j = JobState.running) := by
          simp [hw]
        have hcard : runningCount n ⟨Function.update s.jobs i JobState.running, s.avail - 1⟩ =
            runningCount n s + 1 := by
          simp only [runningCount]
          rw [filter_update_to_running n s.jobs i, Finset.card_insert_of_not_mem hnm]
        simp only [hcard]
        omega
      | finishReaped i k hr2 =>
        have hmem : i ∈ Finset.univ.filter (fun j => s.jobs j = JobState.running) := by
          simp [hr2]
        have hpos : 0 < runningCount n s := Finset.card_pos.mpr ⟨i, hmem⟩
        have hcard : runningCount n ⟨Function.update s.jobs i JobState.done, s.avail + 1⟩ =
            runningCount n s - 1 := by
          simp only [runningCount]
          rw [filter_update_off n s.jobs i JobState.done (by simp)]
          exact Finset.card_erase_of_mem hmem
        simp only [hcard]
        omega
      | finishTimeout i hr2 =>
        have hmem : i ∈ Finset.univ.filter (fun j => s.jobs j = JobState.running) := by
          simp [hr2]
        have hpos : 0 < runningCount n s := Finset.card_pos.mpr ⟨i, hmem⟩
        have hcard : runningCount n ⟨Function.update s.jobs i JobState.abandoned, s.avail + 1⟩ =
            runningCount n s - 1 := by
          simp only [runningCount]
          rw [filter_update_off n s.jobs i JobState.abandoned (by simp)]
          exact Finset.card_erase_of_mem hmem
        simp only [hcard]
        omega
      | reap i ha =>
        have hnm : i ∉ Finset.univ.filter (fun j => s.jobs j = JobState.running) := by
          simp [ha]
        have hcard : runningCount n ⟨Function.update s.jobs i JobState.done, s.avail⟩ =
            runningCount n s := by
          simp only [runningCount]
          rw [filter_update_off n s.jobs i JobState.done (by simp),
            Finset.erase_eq_of_not_mem hnm]
        simp only [hcard]
        omega
  refine ⟨rfl, by omega, main, ?_⟩
  intro hdone
  have h0 : runningCount n s = 0 := by
    have hemp : (Finset.univ.filter (fun j : Fin n => s.jobs j = JobState.running)) = ∅ := by
      rw [Finset.filter_eq_empty_iff]
      intro j _
      simp [hdone j]
    simp [runningCount, hemp]
  omega

/-- Witness for the amended C9, at the reachable over-subscribed state
`swarmOver8`: six permits held, none available, the seventh live
process notwithstanding. -/
theorem C9_witness :
    swarmPermits = 6 ∧
    runningCount 7 swarmOver8 ≤ swarmPermits ∧
    swarmOver8.avail + runningCount 7 swarmOver8 = swarmPermits ∧
    (allDone 7 swarmOver8 → swarmOver8.avail = swarmPermits) := by
  have r0 : SwarmReachable 7 swarmOver0 := SwarmReachable.init
  have r1 : SwarmReachable 7 swarmOver1 :=
    SwarmReachable.step _ _ r0 (SwarmStep.acquire swarmOver0 0 (by decide) (by decide))
  have r2 : SwarmReachable 7 swarmOver2 :=
    SwarmReachable.step _ _ r1 (SwarmStep.acquire swarmOver1 1 (by decide) (by decide))
  have r3 : SwarmReachable 7 swarmOver3 :=
    SwarmReachable.step _ _ r2 (SwarmStep.acquire swarmOver2 2 (by decide) (by decide))
  have r4 : SwarmReachable 7 swarmOver4 :=
    SwarmReachable.step _ _ r3 (SwarmStep.acquire swarmOver3 3 (by decide) (by decide))
  have r5 : SwarmReachable 7 swarmOver5 :=
    SwarmReachable.step _ _ r4 (SwarmStep.acquire swarmOver4 4 (by decide) (by decide))
  have r6 : SwarmReachable 7 swarmOver6 :=
    SwarmReachable.step _ _ r5 (SwarmStep.acquire swarmOver5 5 (by decide) (by decide))
  have r7 : SwarmReachable 7 swarmOver7 :=
    SwarmReachable.step _ _ r6 (SwarmStep.finishTimeout swarmOver6 0 (by decide))
  have r8 : SwarmReachable 7 swarmOver8 :=
    SwarmReachable.step _ _ r7 (SwarmStep.acquire swarmOver7 6 (by decide) (by decide))
  exact C9_permit_bound 7 swarmOver8 r8

/-! ### Claim C10 — the delegate skill -/

/-- C10: for every argument string and every sub-agent outcome, the
delegate skill's `execute` returns `Ok`; every failure (timeout,
non-zero exit, spawn error) is encoded inside the `Ok` payload as a
JSON object with `"success": false` and a `"Delegation Failed: …"`
error message. -/
theorem C10_delegate_always_ok (o : SpawnOutcome) (args : String) :
    (delegateExecute o args).isOk = true ∧
    (∀ e, swarmSpawnResult o = .error e →
      delegateExecute o args = .ok (renderJson (.jobj
        [("error", .jstr ("Delegation Failed: " ++ e)),
         ("role", .jstr (delegateRole args)),
         ("success", .jbool false)]))) := by
  constructor
  · unfold delegateExecute
    cases hsw : swarmSpawnResult o <;> simp [Except.isOk, Except.toBool]
  · intro e he
    simp only [delegateExecute, he]

/-- Witness for C10: a timed-out delegation still returns `Ok`, with
the timeout reason packaged as a `"success": false` JSON payload. -/
theorem C10_witness :
    (delegateExecute SpawnOutcome.timedOut "investigate --role=\"Scout\"").isOk = true ∧
    delegateExecute SpawnOutcome.timedOut "investigate --role=\"Scout\"" =
      .ok (renderJson (.jobj
        [("error", .jstr ("Delegation Failed: " ++ "Sub-spore timeout (10m)")),
         ("role", .jstr (delegateRole "investigate --role=\"Scout\"")),
         ("success", .jbool false)])) :=
  ⟨(C10_delegate_always_ok SpawnOutcome.timedOut "investigate --role=\"Scout\"").1,
   (C10_delegate_always_ok SpawnOutcome.timedOut "investigate --role=\"Scout\"").2
     "Sub-spore timeout (10m)" rfl⟩
